import Mathlib

/-!
Verification of the godocs-inbox background-enrichment core.

The definitions below are a shallow embedding of the Go source:
  - `main.go`: stage tracker (`docStage` map, claims in `serve`),
    `processDocument`, `generateHiresThumb`, `captureTagSet`, the `/undo`
    handler and the `llmDates` provenance map;
  - `internal/llm/llm.go`: `InferDate` input truncation and response
    validation.
Go maps are embedded as total functions where the Go zero value `""`
denotes an absent entry, mirroring `map[string]string` reads.  External
collaborator calls (store, OCR, inference, thumbnail transform) are
embedded as outcome parameters, one per fallible call site.
-/

-- ————————————————————————————————————————————————————————————————
-- Stage tracker (main.go lines 350-355, 376-381, 950-959)
-- ————————————————————————————————————————————————————————————————

/-- Constant `stageOCR = "ocr"` from main.go line 353. -/
def stageOCR : String := "ocr"

/-- Constant `stageLLM = "llm"` from main.go line 354. -/
def stageLLM : String := "llm"

/-- The `docStage map[string]string` field: a Go map read returns the zero
value `""` for a missing key, so absence of an entry is the value `""`. -/
abbrev StageMap := String → String

/-- Go map assignment `m[k] = v`. -/
def mapSet (m : StageMap) (k v : String) : StageMap :=
  fun q => if q = k then v else m q

/-- Go `delete(m, k)`: subsequent reads of `k` return the zero value. -/
def mapDelete (m : StageMap) (k : String) : StageMap :=
  mapSet m k ""

theorem mapSet_self (m : StageMap) (k v : String) : mapSet m k v k = v := by
  simp [mapSet]

theorem mapSet_ne (m : StageMap) (k v q : String) (h : q ≠ k) :
    mapSet m k v q = m q := by
  simp [mapSet, h]

theorem mapDelete_self (m : StageMap) (k : String) : mapDelete m k k = "" := by
  simp [mapDelete, mapSet]

/-- Shared mutable state of `App` relevant to the pipeline: the stage map
`docStage` and the provenance map `llmDates` (main.go lines 376-378). -/
structure AppState where
  docStage : StageMap
  llmDates : String → Bool

/-- The admission check performed under `processingMu` in `serve`
(main.go lines 952-957): if no stage entry exists for the document, record
`stageOCR` and report success (the pipeline goroutine is launched); else
fail leaving the map untouched. -/
def tryClaim (m : StageMap) (ulid : String) : Bool × StageMap :=
  if m ulid = "" then (true, mapSet m ulid stageOCR) else (false, m)

/-- The enrichment trigger in `serve` (main.go lines 950-959): the claim is
attempted only when the document has no text and the earlier stage read saw
no entry; the locked re-check `tryClaim` decides the launch.  The returned
Bool is whether `go processDocument` was launched. -/
def serveTrigger (hasText : Bool) (stageRead : String) (st : AppState)
    (ulid : String) : Bool × AppState :=
  if hasText = false ∧ stageRead = "" then
    let r := tryClaim st.docStage ulid
    (r.1, { st with docStage := r.2 })
  else (false, st)

-- ————————————————————————————————————————————————————————————————
-- Enrichment pipeline: processDocument (main.go lines 430-513)
-- ————————————————————————————————————————————————————————————————

/-- Outcomes of the external calls made by one `processDocument` run, one
field per fallible call site, in source order:
`DownloadDocument`, `os.CreateTemp`, `tmpFile.Write`, `ocr.ExtractText`
(`none` = error, including the unsupported-type error), `UploadDocumentText`,
`llm.InferDate` (`none` = error; `some ""` = no date found),
`UpdateDocumentDate`. -/
structure PipelineEnv where
  downloadOk : Bool
  tmpFileOk : Bool
  writeOk : Bool
  ocrResult : Option String
  uploadTextOk : Bool
  inferResult : Option String
  uploadDateOk : Bool

/-- The deferred cleanup at the top of `processDocument` (main.go lines
431-435): delete the stage entry; this runs on every exit path, after the
body.  The trace records the stage value observed for `ulid` after the
mutation. -/
def deferRelease (ulid : String) (s : AppState) (tr : List String) :
    AppState × List String :=
  let m := mapDelete s.docStage ulid
  ({ s with docStage := m }, tr ++ [m ulid])

/-- Function `processDocument` (main.go lines 430-513), embedded as a function from
the call outcomes and the pre-state to the post-state, paired with the
trace of `docStage[ulid]` values observed after each mutation of the stage
map made by this run.  Control flow mirrors the Go body: each `return` on
a failed step runs only the deferred release. -/
def processDocument (env : PipelineEnv) (ulid : String) (st : AppState) :
    AppState × List String :=
  if env.downloadOk = false then deferRelease ulid st [] else
  if env.tmpFileOk = false then deferRelease ulid st [] else
  if env.writeOk = false then deferRelease ulid st [] else
  match env.ocrResult with
  | none => deferRelease ulid st []
  | some text =>
    if text = "" then deferRelease ulid st [] else
    if env.uploadTextOk = false then deferRelease ulid st [] else
    let m1 := mapSet st.docStage ulid stageLLM
    let st1 : AppState := { st with docStage := m1 }
    let tr1 := [m1 ulid]
    match env.inferResult with
    | none => deferRelease ulid st1 tr1
    | some dateStr =>
      if dateStr = "" then deferRelease ulid st1 tr1 else
      if env.uploadDateOk = false then deferRelease ulid st1 tr1 else
      deferRelease ulid
        { st1 with llmDates := fun u => if u = ulid then true else st1.llmDates u }
        tr1

/-- Path condition for reaching the `Advance`-to-LLM step (main.go lines
481-483): all steps up to and including the text upload succeeded. -/
def reachesLLMStage (env : PipelineEnv) : Bool :=
  env.downloadOk && env.tmpFileOk && env.writeOk &&
  (match env.ocrResult with
   | none => false
   | some text => text != "") && env.uploadTextOk

/-- Path condition for the successful date upload (main.go lines 506-512):
the run reached inference, a non-empty date came back, and
`UpdateDocumentDate` succeeded. -/
def dateUploadSucceeded (env : PipelineEnv) : Bool :=
  reachesLLMStage env &&
  (match env.inferResult with
   | none => false
   | some dateStr => dateStr != "") && env.uploadDateOk

/-- One full pipeline run as launched by `serve`: the successful claim
(main.go line 954) followed by `processDocument`.  The trace starts with
the stage observed before the claim and after it. -/
def pipelineRun (env : PipelineEnv) (ulid : String) (st : AppState) :
    AppState × List String :=
  let m1 := (tryClaim st.docStage ulid).2
  let st1 : AppState := { st with docStage := m1 }
  let r := processDocument env ulid st1
  (r.1, st.docStage ulid :: m1 ulid :: r.2)

-- ————————————————————————————————————————————————————————————————
-- Thumbnail cache (main.go lines 387-428)
-- ————————————————————————————————————————————————————————————————

/-- What `os.Stat` can report about a path: no file, a file whose contents
are still being written, or a finished file. -/
inductive FileState where
  | absent
  | midwrite
  | complete
deriving DecidableEq

/-- The filesystem as a map from paths to file states. -/
abbrev FS := String → FileState

/-- One path updated. -/
def fsSet (fs : FS) (p : String) (v : FileState) : FS :=
  fun q => if q = p then v else fs q

theorem fsSet_self (fs : FS) (p : String) (v : FileState) : fsSet fs p v p = v := by
  simp [fsSet]

theorem fsSet_ne (fs : FS) (p : String) (v : FileState) (q : String)
    (h : q ≠ p) : fsSet fs p v q = fs q := by
  simp [fsSet, h]

/-- Function `hiresThumbPath` (main.go lines 387-389): `filepath.Join(thumbDir, ulid + ".png")`. -/
def hiresThumbPath (thumbDir ulid : String) : String :=
  thumbDir ++ "/" ++ ulid ++ ".png"

/-- Function `hiresThumbExists` (main.go lines 391-394): `os.Stat` succeeds whenever
any file is present at the path, finished or not. -/
def hiresThumbExists (fs : FS) (p : String) : Bool :=
  fs p != FileState.absent

/-- Outcomes of the external calls made by `generateHiresThumb`, in source
order: `DownloadDocument`, `os.CreateTemp`, `tmpFile.Write`, and the
thumbnail transform `thumbnails.GenerateStyledAndSave`. -/
structure ThumbEnv where
  downloadOk : Bool
  tmpFileOk : Bool
  writeOk : Bool
  renderOk : Bool

/-- Modelled from the spec: the body of `thumbnails.GenerateStyledAndSave`
lives in the external go-thumbnails module and is not part of this
repository's source; the spec (§4.3) requires that the transform "must
write its output through a temporary path followed by an atomic rename
into the final cache path" and that "failure at any step is logged and
leaves no file behind".  The returned list is the sequence of filesystem
states the transform produces: the temporary output file appears and is
written, then the rename installs the finished file at `dest` in a single
atomic step; on failure the temporary file is removed and `dest` is never
touched. -/
def renderStyledStates (ok : Bool) (tmpOut dest : String) (fs : FS) : List FS :=
  let fs1 := fsSet fs tmpOut FileState.midwrite
  if ok then
    let fs2 := fsSet fs1 tmpOut FileState.complete
    let fs3 := fsSet (fsSet fs2 dest FileState.complete) tmpOut FileState.absent
    [fs1, fs2, fs3]
  else
    [fs1, fsSet fs1 tmpOut FileState.absent]

/-- Function `generateHiresThumb` (main.go lines 396-428), embedded as the trace of
filesystem states of one run.  `tmpIn` is the scratch path returned by
`os.CreateTemp` for the downloaded bytes (removed by `defer` on every exit
path after its creation); `tmpOut` is the temporary output path used by the
transform.  An early return (existence hit, download or temp-file failure)
touches nothing. -/
def generateHiresThumb (env : ThumbEnv) (thumbDir ulid tmpIn tmpOut : String)
    (fs : FS) : List FS :=
  let outPath := hiresThumbPath thumbDir ulid
  if hiresThumbExists fs outPath then [fs]
  else if env.downloadOk = false then [fs]
  else if env.tmpFileOk = false then [fs]
  else
    let fs1 := fsSet fs tmpIn FileState.midwrite
    if env.writeOk = false then [fs, fs1, fsSet fs1 tmpIn FileState.absent]
    else
      let fs2 := fsSet fs1 tmpIn FileState.complete
      let rs := renderStyledStates env.renderOk tmpOut outPath fs2
      let fsEnd := rs.getLastD fs2
      [fs, fs1, fs2] ++ rs ++ [fsSet fsEnd tmpIn FileState.absent]

-- ————————————————————————————————————————————————————————————————
-- Tag history (main.go lines 51-60, 515-544)
-- ————————————————————————————————————————————————————————————————

/-- Structure `GodocsTag` (main.go lines 64-70), the fields `captureTagSet` reads. -/
structure GodocsTag where
  id : Int
  name : String
  color : String
deriving DecidableEq

/-- Structure `TagSetEntry` (main.go lines 51-55). -/
structure TagSetEntry where
  id : Int
  name : String
  color : String
deriving DecidableEq

/-- Structure `RecentTagSet` (main.go lines 57-60). -/
structure RecentTagSet where
  tags : List TagSetEntry
  label : String
deriving DecidableEq

instance : Inhabited RecentTagSet := ⟨⟨[], ""⟩⟩

/-- Insertion sort on strings; agrees with Go's `sort.Strings`
(lexicographic order; UTF-8 byte order and code-point order coincide). -/
def insertSorted (s : String) : List String → List String
  | [] => [s]
  | t :: ts => if s ≤ t then s :: t :: ts else t :: insertSorted s ts

def sortStrings : List String → List String
  | [] => []
  | s :: ss => insertSorted s (sortStrings ss)

/-- The label computed by `captureTagSet` (main.go lines 524-530): tag
names sorted lexicographically and joined with `", "`. -/
def captureLabel (tags : List GodocsTag) : String :=
  String.intercalate ", " (sortStrings (tags.map (fun t => t.name)))

/-- Function `captureTagSet` (main.go lines 515-544) as a function of the
`FetchDocTags` outcome (`none` = error) and the current history.  In demo
mode (`app.client == nil`) the function returns immediately; an error or an
empty tag set is a no-op; otherwise the new set is deduplicated by label,
prepended, and the history truncated to 3. -/
def captureTagSet (isDemo : Bool) (fetched : Option (List GodocsTag))
    (recentSets : List RecentTagSet) : List RecentTagSet :=
  if isDemo then recentSets else
  match fetched with
  | none => recentSets
  | some tags =>
    if tags.length = 0 then recentSets
    else
      let entries := tags.map (fun t => TagSetEntry.mk t.id t.name t.color)
      let label := captureLabel tags
      let newSet : RecentTagSet := { tags := entries, label := label }
      let filtered := recentSets.filter (fun s => s.label != label)
      let result := newSet :: filtered
      if result.length > 3 then result.take 3 else result

-- ————————————————————————————————————————————————————————————————
-- Undo record (main.go lines 359-368, 1097-1127)
-- ————————————————————————————————————————————————————————————————

/-- Structure `LastAction` (main.go lines 359-368). -/
structure LastAction where
  docULID : String
  docName : String
  tagID : Int
  tagName : String
  file : String
  fromDir : String
  toDir : String

/-- Collaborator calls the `/undo` handler can make. -/
inductive UndoCall where
  | removeTag (ulid : String) (tagID : Int)
  | renameFile (src dst : String)

/-- The `/undo` handler (main.go lines 1097-1127) as a function of the
current record: returns whether an action was undone, the new record, and
the list of collaborator calls made.  With no record it returns before any
collaborator call; with a record it reverses it (demo: move the file back;
server: remove the previously added tag) and clears the record. -/
def undoHandler (isDemo : Bool) (last : Option LastAction) :
    Bool × Option LastAction × List UndoCall :=
  match last with
  | none => (false, none, [])
  | some a =>
    if isDemo then
      (true, none, [UndoCall.renameFile (a.toDir ++ "/" ++ a.file)
        (a.fromDir ++ "/" ++ a.file)])
    else
      (true, none, [UndoCall.removeTag a.docULID a.tagID])

-- ————————————————————————————————————————————————————————————————
-- Date inference: internal/llm/llm.go
-- ————————————————————————————————————————————————————————————————

/-- The truncation at the top of `InferDate` (llm.go lines 24-27):
`if len(text) > 2000 { text = text[:2000] }`, over the text's sequence of
units. -/
def inferDateInput (text : List Char) : List Char :=
  if text.length > 2000 then text.take 2000 else text

/-- Go `unicode.IsSpace` on the characters `strings.TrimSpace` can strip in
this code path (ASCII whitespace plus Latin-1 NEL and NBSP). -/
def isSpaceGo (c : Char) : Bool :=
  c = ' ' || c = '\t' || c = '\n' || c = Char.ofNat 11 || c = Char.ofNat 12 ||
  c = '\r' || c = Char.ofNat 0x85 || c = Char.ofNat 0xA0

/-- Go `strings.TrimSpace` (llm.go line 61): strip leading and trailing
whitespace. -/
def goTrimSpace (s : String) : String :=
  String.mk (((s.data.dropWhile isSpaceGo).reverse.dropWhile isSpaceGo).reverse)

/-- Go `strings.EqualFold(dateStr, "NONE")` (llm.go line 62): the letters of
NONE have only their ASCII case pair under Unicode simple folding. -/
def equalFoldNONE (s : String) : Bool :=
  s.data.map Char.toLower == ['n', 'o', 'n', 'e']

/-- Numeric value of a digit string, as Go's `time` package `atoi` on an
all-digit slice. -/
def charsVal (cs : List Char) : Nat :=
  cs.foldl (fun a c => a * 10 + (c.toNat - '0'.toNat)) 0

/-- Gregorian leap year, as Go `time.isLeap`. -/
def isLeapYear (y : Nat) : Bool :=
  y % 4 == 0 && (y % 100 != 0 || y % 400 == 0)

/-- Days in a month, as Go `time.daysIn`. -/
def daysInMonth (m y : Nat) : Nat :=
  if m = 2 then (if isLeapYear y then 29 else 28)
  else if m = 4 ∨ m = 6 ∨ m = 9 ∨ m = 11 then 30
  else 31

/-- Go `time.Parse("2006-01-02", s)` succeeding (llm.go line 67): exactly ten
characters `DDDD-DD-DD` with all-digit fields, no extra text, month in
1..12 and day in 1..daysIn(month, year). -/
def goParseYMD (s : String) : Bool :=
  let l := s.data
  (l.length == 10) &&
  (l.getD 0 ' ').isDigit && (l.getD 1 ' ').isDigit &&
  (l.getD 2 ' ').isDigit && (l.getD 3 ' ').isDigit &&
  (l.getD 4 ' ' == '-') &&
  (l.getD 5 ' ').isDigit && (l.getD 6 ' ').isDigit &&
  (l.getD 7 ' ' == '-') &&
  (l.getD 8 ' ').isDigit && (l.getD 9 ' ').isDigit &&
  (let year := charsVal [l.getD 0 ' ', l.getD 1 ' ', l.getD 2 ' ', l.getD 3 ' ']
   let month := charsVal [l.getD 5 ' ', l.getD 6 ' ']
   let day := charsVal [l.getD 8 ' ', l.getD 9 ' ']
   decide (1 ≤ month) && decide (month ≤ 12) &&
   decide (1 ≤ day) && decide (day ≤ daysInMonth month year))

/-- The response-interpretation tail of `InferDate` (llm.go lines 61-71),
from the decoded response string to the returned pair; the Bool is whether
a non-nil error is returned (every path here returns `nil`).  An empty or
"NONE" trimmed response, or one `time.Parse` rejects, yields `("", nil)`;
otherwise the trimmed response itself is returned. -/
def inferDateTail (response : String) : String × Bool :=
  let dateStr := goTrimSpace response
  if (dateStr == "") || equalFoldNONE dateStr then ("", false)
  else if goParseYMD dateStr then (dateStr, false)
  else ("", false)

-- ————————————————————————————————————————————————————————————————
-- Helper lemmas
-- ————————————————————————————————————————————————————————————————

theorem deferRelease_docStage (ulid : String) (s : AppState) (tr : List String) :
    ((deferRelease ulid s tr).1).docStage ulid = "" := by
  simp [deferRelease, mapDelete, mapSet]

theorem processDocument_trace (env : PipelineEnv) (ulid : String) (st : AppState) :
    (processDocument env ulid st).2 = [""] ∨
    (processDocument env ulid st).2 = [stageLLM, ""] := by
  unfold processDocument
  repeat' split
  all_goals simp [deferRelease, mapDelete, mapSet, stageLLM]

-- ————————————————————————————————————————————————————————————————
-- Claim theorems
-- ————————————————————————————————————————————————————————————————

/-- C5: on every exit path of `processDocument` — download failure,
scratch-file failure, OCR failure (including unsupported type), empty
text, text-upload failure, inference failure, no date, date-upload failure
or full success — the deferred cleanup removes the document's stage entry
as the final step, leaving no entry dangling. -/
theorem process_always_releases :
    ∀ (env : PipelineEnv) (ulid : String) (st : AppState),
      ((processDocument env ulid st).1).docStage ulid = "" := by
  intro env ulid st
  unfold processDocument
  repeat' split
  all_goals exact deferRelease_docStage ulid _ _

/-- C7: undo is exactly single-level: with no record the handler returns
false, keeps the record empty and makes zero collaborator calls; with a
record it reverses it (server mode removes the previously added tag, demo
mode moves the file back to its origin), clears the record and reports
success, so an immediately following undo returns false with no call. -/
theorem undo_single_level :
    ∀ (isDemo : Bool) (a : LastAction),
      undoHandler isDemo none = (false, none, []) ∧
      (undoHandler isDemo (some a)).1 = true ∧
      (undoHandler isDemo (some a)).2.1 = none ∧
      (undoHandler isDemo (some a)).2.2 =
        (if isDemo then
          [UndoCall.renameFile (a.toDir ++ "/" ++ a.file) (a.fromDir ++ "/" ++ a.file)]
         else [UndoCall.removeTag a.docULID a.tagID]) ∧
      undoHandler isDemo (undoHandler isDemo (some a)).2.1 = (false, none, []) := by
  intro isDemo a
  cases isDemo <;> simp [undoHandler]

/-- C9: the text handed to the date-inference collaborator is the first
2000 units of the extracted text: texts of at most 2000 units are passed
whole, longer ones are cut to exactly their first 2000 units. -/
theorem inferdate_truncates_input :
    ∀ (text : List Char),
      inferDateInput text = text.take 2000 ∧
      (text.length ≤ 2000 → inferDateInput text = text) ∧
      (text.length > 2000 → (inferDateInput text).length = 2000) := by
  intro text
  by_cases h : text.length > 2000
  · have h1 : inferDateInput text = text.take 2000 := by
      unfold inferDateInput
      rw [if_pos h]
    refine ⟨h1, fun hle => absurd h (by omega), fun _ => ?_⟩
    rw [h1, List.length_take]
    omega
  · have hle : text.length ≤ 2000 := by omega
    have h1 : inferDateInput text = text := by
      unfold inferDateInput
      rw [if_neg h]
    exact ⟨by rw [h1, List.take_of_length_le hle], fun _ => h1,
      fun hgt => absurd hgt h⟩

/-- Witness for C9 at a concrete long and a concrete short input. -/
theorem inferdate_truncates_input_witness :
    inferDateInput (List.replicate 2001 'a') = List.replicate 2000 'a' ∧
    inferDateInput ['a'] = ['a'] := by
  have h1 := inferdate_truncates_input (List.replicate 2001 'a')
  have h2 := inferdate_truncates_input ['a']
  constructor
  · rw [h1.1, List.take_replicate]
    norm_num
  · exact h2.2.1 (by simp)

/-- C10: when `FetchDocTags` fails with an error, `captureTagSet` leaves
the tag history completely unchanged, exactly as it does for an empty
remote tag set. -/
theorem capture_error_leaves_history :
    ∀ (sets : List RecentTagSet),
      captureTagSet false none sets = sets ∧
      captureTagSet false (some []) sets = sets := by
  intro sets
  exact ⟨rfl, rfl⟩

/-- C1: the admission control in `serve`.  Stated over the locked section
`tryClaim` (the stage map is a function, so it holds one value per
identifier by construction; the mutex serializes concurrent attempts, so
two concurrent claims execute as `tryClaim` twice in some order): when no
entry exists the first claim succeeds and records OCR-running, the second
claim fails and leaves the map untouched; a failed claim never has a side
effect; and `serveTrigger` launches the pipeline goroutine only when the
claim succeeded. -/
theorem tryclaim_admission :
    ∀ (st : AppState) (ulid : String) (hasText : Bool) (stageRead : String),
      (st.docStage ulid = "" →
        (tryClaim st.docStage ulid).1 = true ∧
        (tryClaim st.docStage ulid).2 ulid = stageOCR ∧
        (tryClaim (tryClaim st.docStage ulid).2 ulid).1 = false ∧
        (tryClaim (tryClaim st.docStage ulid).2 ulid).2 = (tryClaim st.docStage ulid).2) ∧
      ((tryClaim st.docStage ulid).1 = false → (tryClaim st.docStage ulid).2 = st.docStage) ∧
      ((serveTrigger hasText stageRead st ulid).1 = true →
        (tryClaim st.docStage ulid).1 = true ∧ hasText = false) := by
  intro st ulid hasText stageRead
  by_cases h : st.docStage ulid = ""
  · have hset : mapSet st.docStage ulid stageOCR ulid = stageOCR :=
      mapSet_self st.docStage ulid stageOCR
    have hne : mapSet st.docStage ulid stageOCR ulid ≠ "" := by
      rw [hset]
      decide
    have hfirst : tryClaim st.docStage ulid = (true, mapSet st.docStage ulid stageOCR) := by
      simp [tryClaim, h]
    have hsecond : tryClaim (mapSet st.docStage ulid stageOCR) ulid =
        (false, mapSet st.docStage ulid stageOCR) := by
      unfold tryClaim
      rw [if_neg hne]
    refine ⟨fun _ => ?_, ?_, ?_⟩
    · rw [hfirst]
      exact ⟨rfl, hset, by rw [hsecond], by rw [hsecond]⟩
    · simp [tryClaim, h]
    · intro hl
      unfold serveTrigger at hl
      by_cases hc : hasText = false ∧ stageRead = ""
      · rw [if_pos hc] at hl
        exact ⟨hl, hc.1⟩
      · rw [if_neg hc] at hl
        exact absurd hl (by simp)
  · refine ⟨fun h0 => absurd h0 h, ?_, ?_⟩
    · intro _
      simp [tryClaim, h]
    · intro hl
      unfold serveTrigger at hl
      by_cases hc : hasText = false ∧ stageRead = ""
      · rw [if_pos hc] at hl
        simp [tryClaim, h] at hl
      · rw [if_neg hc] at hl
        exact absurd hl (by simp)

/-- Witness for C1 on the empty stage map: the first claim for "d" succeeds
and records "ocr", the second fails and changes nothing. -/
theorem tryclaim_admission_witness :
    (tryClaim (fun _ => "") "d").1 = true ∧
    (tryClaim (fun _ => "") "d").2 "d" = stageOCR ∧
    (tryClaim (tryClaim (fun _ => "") "d").2 "d").1 = false ∧
    (tryClaim (tryClaim (fun _ => "") "d").2 "d").2 = (tryClaim (fun _ => "") "d").2 := by
  have h := tryclaim_admission { docStage := fun _ => "", llmDates := fun _ => false }
    "d" true ""
  exact h.1 rfl

/-- C4: within one pipeline run (successful claim followed by
`processDocument`) the observed stage sequence for the document is exactly
idle → OCR-running → Date-inference-running → idle, or the failure-shortened
idle → OCR-running → idle; no stage is skipped or revisited, and the
Date-inference stage only ever appears after the OCR stage of the same
run. -/
theorem pipeline_stage_sequence :
    ∀ (env : PipelineEnv) (ulid : String) (st : AppState),
      st.docStage ulid = "" →
      (pipelineRun env ulid st).2 = ["", stageOCR, ""] ∨
      (pipelineRun env ulid st).2 = ["", stageOCR, stageLLM, ""] := by
  intro env ulid st h
  have htc : tryClaim st.docStage ulid = (true, mapSet st.docStage ulid stageOCR) := by
    simp [tryClaim, h]
  rcases processDocument_trace env ulid
      { st with docStage := mapSet st.docStage ulid stageOCR } with h' | h'
  · left
    simp [pipelineRun, htc, h, mapSet_self, h']
  · right
    simp [pipelineRun, htc, h, mapSet_self, h']

/-- Witness for C4: a fully failing run and a fully succeeding run from the
empty stage map produce the two allowed sequences. -/
theorem pipeline_stage_sequence_witness :
    ((pipelineRun ⟨false, false, false, none, false, none, false⟩ "d"
        { docStage := fun _ => "", llmDates := fun _ => false }).2 = ["", stageOCR, ""] ∨
      (pipelineRun ⟨false, false, false, none, false, none, false⟩ "d"
        { docStage := fun _ => "", llmDates := fun _ => false }).2 = ["", stageOCR, stageLLM, ""]) ∧
    ((pipelineRun ⟨true, true, true, some "text", true, some "2024-03-01", true⟩ "d"
        { docStage := fun _ => "", llmDates := fun _ => false }).2 = ["", stageOCR, ""] ∨
      (pipelineRun ⟨true, true, true, some "text", true, some "2024-03-01", true⟩ "d"
        { docStage := fun _ => "", llmDates := fun _ => false }).2 = ["", stageOCR, stageLLM, ""]) := by
  constructor
  · exact pipeline_stage_sequence ⟨false, false, false, none, false, none, false⟩ "d"
      { docStage := fun _ => "", llmDates := fun _ => false } rfl
  · exact pipeline_stage_sequence ⟨true, true, true, some "text", true, some "2024-03-01", true⟩
      "d" { docStage := fun _ => "", llmDates := fun _ => false } rfl

theorem serveTrigger_llmDates (hasText : Bool) (stageRead : String)
    (st : AppState) (ulid : String) :
    ((serveTrigger hasText stageRead st ulid).2).llmDates = st.llmDates := by
  unfold serveTrigger
  split <;> rfl

theorem processDocument_llmDates_mono (env : PipelineEnv) (ulid : String)
    (st : AppState) :
    ∀ u, st.llmDates u = true → ((processDocument env ulid st).1).llmDates u = true := by
  intro u hu
  unfold processDocument
  repeat' split
  all_goals simp [deferRelease, hu]

theorem processDocument_llmDates_iff (env : PipelineEnv) (ulid : String)
    (st : AppState) :
    ((processDocument env ulid st).1).llmDates ulid = true ↔
      (st.llmDates ulid = true ∨ dateUploadSucceeded env = true) := by
  unfold processDocument
  repeat' split
  all_goals simp_all [deferRelease, dateUploadSucceeded, reachesLLMStage]

/-- C8: the date-provenance flag for a document becomes true after a
`processDocument` run exactly when it was already true or the run reached a
valid inferred date and `UpdateDocumentDate` succeeded (on upload failure
it is left unset); the run never clears a flag that was set, and the only
other mutator of shared state, the `serve` trigger, leaves the flag map
untouched.  (`llmDates` is written nowhere else in the source.) -/
theorem provenance_flag_rules :
    ∀ (env : PipelineEnv) (ulid : String) (st : AppState),
      (∀ u, st.llmDates u = true → ((processDocument env ulid st).1).llmDates u = true) ∧
      (((processDocument env ulid st).1).llmDates ulid = true ↔
        (st.llmDates ulid = true ∨ dateUploadSucceeded env = true)) ∧
      (∀ (hasText : Bool) (stageRead : String),
        ((serveTrigger hasText stageRead st ulid).2).llmDates = st.llmDates) := by
  intro env ulid st
  exact ⟨processDocument_llmDates_mono env ulid st,
    processDocument_llmDates_iff env ulid st,
    fun hasText stageRead => serveTrigger_llmDates hasText stageRead st ulid⟩

/-- Witness for C8: a fully successful run sets the flag for the document,
and a run whose date upload fails leaves it unset. -/
theorem provenance_flag_rules_witness :
    ((processDocument ⟨true, true, true, some "t", true, some "2024-03-01", true⟩ "d"
      { docStage := fun _ => "", llmDates := fun _ => false }).1).llmDates "d" = true ∧
    ((processDocument ⟨true, true, true, some "t", true, some "2024-03-01", false⟩ "d"
      { docStage := fun _ => "", llmDates := fun _ => false }).1).llmDates "d" = false := by
  have h1 := provenance_flag_rules ⟨true, true, true, some "t", true, some "2024-03-01", true⟩
    "d" { docStage := fun _ => "", llmDates := fun _ => false }
  have h2 := provenance_flag_rules ⟨true, true, true, some "t", true, some "2024-03-01", false⟩
    "d" { docStage := fun _ => "", llmDates := fun _ => false }
  constructor
  · exact h1.2.1.mpr (Or.inr (by decide))
  · have := h2.2.1
    rw [Bool.eq_false_iff]
    intro hc
    rcases this.mp hc with hfalse | hfalse
    · exact absurd hfalse (by decide)
    · exact absurd hfalse (by decide)

theorem goParseYMD_length (s : String) (h : goParseYMD s = true) :
    s.data.length = 10 := by
  simp only [goParseYMD, Bool.and_eq_true] at h
  exact beq_iff_eq.mp h.1.1.1.1.1.1.1.1.1.1.1

theorem equalFoldNONE_length (s : String) (h : equalFoldNONE s = true) :
    s.data.length = 4 := by
  simp only [equalFoldNONE, beq_iff_eq] at h
  have hl := congrArg List.length h
  simpa using hl

/-- C3: for every decoded collaborator response, `InferDate` returns a
non-empty date exactly when the trimmed response passes
`time.Parse("2006-01-02", ·)`; the returned date is the trimmed response
itself; and every such path — empty response, the "NONE" sentinel (any
case), or an unparseable string — returns a nil error, treating the
situation as no-date-found rather than a failure. -/
theorem inferdate_accepts_only_valid :
    ∀ (response : String),
      ((inferDateTail response).1 ≠ "" ↔ goParseYMD (goTrimSpace response) = true) ∧
      ((inferDateTail response).1 = "" ∨ (inferDateTail response).1 = goTrimSpace response) ∧
      (inferDateTail response).2 = false := by
  intro r
  simp only [inferDateTail]
  by_cases h1 : ((goTrimSpace r == "") || equalFoldNONE (goTrimSpace r)) = true
  · rw [if_pos h1]
    refine ⟨⟨fun hne => absurd rfl hne, fun hp => ?_⟩, Or.inl rfl, rfl⟩
    rw [Bool.or_eq_true] at h1
    rcases h1 with he | hf
    · have he' : goTrimSpace r = "" := by simpa using he
      rw [he'] at hp
      exact absurd (goParseYMD_length _ hp) (by decide)
    · have hlen4 := equalFoldNONE_length _ hf
      have hlen10 := goParseYMD_length _ hp
      omega
  · rw [if_neg h1]
    by_cases h2 : goParseYMD (goTrimSpace r) = true
    · rw [if_pos h2]
      have hne : goTrimSpace r ≠ "" := by
        intro he
        rw [he] at h2
        exact absurd (goParseYMD_length _ h2) (by decide)
      exact ⟨⟨fun _ => h2, fun _ => hne⟩, Or.inr rfl, rfl⟩
    · rw [if_neg h2]
      exact ⟨⟨fun hne => absurd rfl hne, fun hp => absurd hp h2⟩, Or.inl rfl, rfl⟩

/-- The new entry `captureTagSet` builds from a fetched tag list
(main.go lines 523-531). -/
def captureNewSet (tags : List GodocsTag) : RecentTagSet :=
  { tags := tags.map (fun t => TagSetEntry.mk t.id t.name t.color),
    label := captureLabel tags }

theorem captureTagSet_cons (tags : List GodocsTag) (h : tags ≠ [])
    (sets : List RecentTagSet) :
    captureTagSet false (some tags) sets =
      (if (captureNewSet tags ::
            sets.filter (fun s => s.label != captureLabel tags)).length > 3
       then (captureNewSet tags ::
            sets.filter (fun s => s.label != captureLabel tags)).take 3
       else captureNewSet tags ::
            sets.filter (fun s => s.label != captureLabel tags)) := by
  simp only [captureTagSet, captureNewSet, Bool.false_eq_true, if_false]
  rw [if_neg (fun hc => h (List.length_eq_zero.mp hc))]

theorem filtered_label_ne (sets : List RecentTagSet) (L : String) :
    ∀ s ∈ sets.filter (fun s => s.label != L), s.label ≠ L := by
  intro s hs
  exact bne_iff_ne.mp (List.mem_filter.mp hs).2

/-- C6: every `captureTagSet` call preserves the tag-history invariants:
the history never exceeds 3 entries; pairwise-distinct labels are
preserved (a captured set whose label already occurs has the old
occurrence filtered out before the new entry is prepended); the new entry
sits at the front with no other entry carrying its label; and a capture
that reads an empty tag set leaves the history unchanged. -/
theorem capture_history_invariants :
    ∀ (fetched : Option (List GodocsTag)) (sets : List RecentTagSet),
      (sets.length ≤ 3 → (captureTagSet false fetched sets).length ≤ 3) ∧
      (sets.Pairwise (fun a b => a.label ≠ b.label) →
        (captureTagSet false fetched sets).Pairwise (fun a b => a.label ≠ b.label)) ∧
      (captureTagSet false (some []) sets = sets) ∧
      (∀ tags : List GodocsTag, tags ≠ [] →
        (captureTagSet false (some tags) sets).headI.label = captureLabel tags ∧
        ∀ s ∈ (captureTagSet false (some tags) sets).tail,
          s.label ≠ captureLabel tags) := by
  intro fetched sets
  have hbranch : ∀ tags : List GodocsTag, tags ≠ [] →
      (captureTagSet false (some tags) sets).length ≤ 3 ∧
      (sets.Pairwise (fun a b => a.label ≠ b.label) →
        (captureTagSet false (some tags) sets).Pairwise (fun a b => a.label ≠ b.label)) ∧
      (captureTagSet false (some tags) sets).headI.label = captureLabel tags ∧
      (∀ s ∈ (captureTagSet false (some tags) sets).tail,
        s.label ≠ captureLabel tags) := by
    intro tags hne
    rw [captureTagSet_cons tags hne sets]
    set L := captureLabel tags with hL
    set filtered := sets.filter (fun s => s.label != L) with hf
    by_cases hlen : (captureNewSet tags :: filtered).length > 3
    · rw [if_pos hlen]
      rw [show (3 : Nat) = 2 + 1 from rfl, List.take_succ_cons]
      refine ⟨?_, ?_, rfl, ?_⟩
      · simp only [List.length_cons, List.length_take]
        omega
      · intro hp
        have hres : (captureNewSet tags :: filtered).Pairwise
            (fun a b => a.label ≠ b.label) := by
          constructor
          · intro b hb
            exact (filtered_label_ne sets L b hb).symm
          · exact hp.filter _
        exact hres.sublist
          (List.cons_sublist_cons.mpr (List.take_sublist 2 filtered))
      · intro s hs
        exact filtered_label_ne sets L s (List.take_subset 2 filtered hs)
    · rw [if_neg hlen]
      refine ⟨?_, ?_, rfl, ?_⟩
      · simp only [List.length_cons] at hlen ⊢
        omega
      · intro hp
        constructor
        · intro b hb
          exact (filtered_label_ne sets L b hb).symm
        · exact hp.filter _
      · intro s hs
        exact filtered_label_ne sets L s hs
  refine ⟨?_, ?_, rfl, fun tags hne => ⟨(hbranch tags hne).2.2.1, (hbranch tags hne).2.2.2⟩⟩
  · intro hlen
    match fetched with
    | none => exact hlen
    | some [] => exact hlen
    | some (t :: ts) => exact (hbranch (t :: ts) (by simp)).1
  · intro hp
    match fetched with
    | none => exact hp
    | some [] => exact hp
    | some (t :: ts) => exact (hbranch (t :: ts) (by simp)).2.1 hp

/-- Witness for C6: capturing a one-tag set into an empty history yields a
single entry whose label is the captured label. -/
theorem capture_history_invariants_witness :
    (captureTagSet false (some [GodocsTag.mk 1 "t1" "c"]) []).length ≤ 3 ∧
    (captureTagSet false (some [GodocsTag.mk 1 "t1" "c"]) []).headI.label =
      captureLabel [GodocsTag.mk 1 "t1" "c"] ∧
    (captureTagSet false (some [GodocsTag.mk 1 "t1" "c"]) []).Pairwise
      (fun a b => a.label ≠ b.label) := by
  have h := capture_history_invariants (some [GodocsTag.mk 1 "t1" "c"]) []
  refine ⟨h.1 (by decide), (h.2.2.2 _ (by simp)).1, h.2.1 (by simp)⟩

/-- C2: during a `generateHiresThumb` run started while no file is at the
cache path, the cache path never holds a partially-written file: in every
filesystem state of the run the path is either absent or complete, so the
existence check behind `Exists`/`Ready` only ever answers true once the
finished thumbnail has been installed by the transform's atomic rename.
The scratch paths are distinct from the cache path (`os.CreateTemp`
allocates fresh names in the temp directory). -/
theorem thumb_cache_never_midwrite :
    ∀ (env : ThumbEnv) (thumbDir ulid tmpIn tmpOut : String) (fs : FS),
      tmpIn ≠ hiresThumbPath thumbDir ulid →
      tmpOut ≠ hiresThumbPath thumbDir ulid →
      fs (hiresThumbPath thumbDir ulid) = FileState.absent →
      ∀ s ∈ generateHiresThumb env thumbDir ulid tmpIn tmpOut fs,
        s (hiresThumbPath thumbDir ulid) ≠ FileState.midwrite ∧
        (hiresThumbExists s (hiresThumbPath thumbDir ulid) = true →
          s (hiresThumbPath thumbDir ulid) = FileState.complete) := by
  intro env td ulid tin tout fs h1 h2 h0 s hs
  have h1' : hiresThumbPath td ulid ≠ tin := Ne.symm h1
  have h2' : hiresThumbPath td ulid ≠ tout := Ne.symm h2
  have hex : hiresThumbExists fs (hiresThumbPath td ulid) = false := by
    simp [hiresThumbExists, h0]
  obtain ⟨dl, tf, wr, rd⟩ := env
  cases dl <;> cases tf <;> cases wr <;> cases rd <;>
    simp [generateHiresThumb, renderStyledStates, hex] at hs <;>
    (repeat' (rcases hs with rfl | hs)) <;>
    simp [hiresThumbExists, fsSet, h0, h1', h2']

/-- Witness for C2: in a fully successful run from the empty filesystem,
the state reached after the scratch input file is written (the fourth
state of the trace) shows nothing at the cache path. -/
theorem thumb_cache_never_midwrite_witness :
    ((generateHiresThumb ⟨true, true, true, true⟩ "t" "u" "a" "b"
        (fun _ => FileState.absent)).get
      ⟨3, by decide⟩) (hiresThumbPath "t" "u") ≠ FileState.midwrite := by
  have h := thumb_cache_never_midwrite ⟨true, true, true, true⟩ "t" "u" "a" "b"
    (fun _ => FileState.absent) (by decide) (by decide) rfl
  exact (h _ (List.get_mem _ 3 (by decide))).1

/-- Witness for C3: a padded valid date is returned trimmed, while the
"NONE" sentinel and an unparseable response both yield the empty result. -/
theorem inferdate_accepts_only_valid_witness :
    (inferDateTail " 2024-03-01 ").1 = "2024-03-01" ∧
    (inferDateTail "NONE").1 = "" ∧
    (inferDateTail "not a date").1 = "" := by
  have h1 := inferdate_accepts_only_valid " 2024-03-01 "
  have h2 := inferdate_accepts_only_valid "NONE"
  have h3 := inferdate_accepts_only_valid "not a date"
  refine ⟨?_, ?_, ?_⟩
  · rcases h1.2.1 with he | he
    · exact absurd he (h1.1.mpr (by decide))
    · rw [he]
      decide
  · by_contra hne
    exact absurd (h2.1.mp hne) (by decide)
  · by_contra hne
    exact absurd (h3.1.mp hne) (by decide)
